import Mathlib

/-!
Shallow embedding of the T-tetromino puzzle (three TypeScript variants:
`src/src/App.tsx` containing two concatenated `App` components, plus the
unnamed files `part_000` and `part_001`).  The core logic embedded here is
the shape geometry (`getTetrominoCells`), the placement validator
(`isValidPlacement`), the placement/undo/redo/reset state machine over
`(grid, history, currentStep, currentRotation)`, and the access pattern of
`part_001`'s validator.
-/

namespace Puzzle

/-- Embedding of the TypeScript `type Cell = null | 'T'`:
`empty` is `null`, `tee` is `'T'`. -/
inductive Cell where
  | empty
  | tee
deriving DecidableEq

/-- Embedding of `type Grid = Cell[][]`: a list of rows. -/
abbrev Grid := List (List Cell)

/-- Embedding of `type Rotation = 0 | 90 | 180 | 270`. -/
inductive Rotation where
  | r0
  | r90
  | r180
  | r270
deriving DecidableEq

/-- JavaScript truthiness of a grid read: `'T'` is truthy; `null` and
`undefined` (an out-of-range read, modelled as `none`) are falsy, so
`!grid[r][c]` is `isFalsy (getCell grid r c)`. -/
def isFalsy : Option Cell → Bool
  | some Cell.tee => false
  | _ => true

/-- Total model of the JavaScript read `grid[r][c]`: `none` stands for an
access that falls outside the array (`undefined`). -/
def getCell (g : Grid) (r c : Int) : Option Cell :=
  if 0 ≤ r ∧ 0 ≤ c then (g.getD r.toNat [])[c.toNat]? else none

/-- Model of the JavaScript write `grid[r][c] = v` on a fresh copy: a no-op
when the indices fall outside the array (the code only writes validated,
in-range cells). -/
def setCell (g : Grid) (r c : Int) (v : Cell) : Grid :=
  if 0 ≤ r ∧ 0 ≤ c then
    g.set r.toNat ((g.getD r.toNat []).set c.toNat v)
  else g

/-- Embedding of `cells.forEach(([r, c]) => { newGrid[r][c] = 'T'; })`. -/
def setCells (g : Grid) (cells : List (Int × Int)) : Grid :=
  cells.foldl (fun acc p => setCell acc p.1 p.2 Cell.tee) g

/-- Embedding of `Array(size).fill(null).map(() => Array(size).fill(null))`. -/
def emptyGrid (size : Nat) : Grid :=
  List.replicate size (List.replicate size Cell.empty)

/-- Type of a rotation-to-offsets table (the Shape Geometry component). -/
abbrev Geom := Int → Int → Rotation → List (Int × Int)

/-- Shape Geometry of the first `App.tsx` variant (lines 113-144) and of
`part_000` (lines 142-173): `getTetrominoCells`, with the bar of the
rotation-0 shape on the anchor row. -/
def getTetrominoCells : Geom := fun row col rotation =>
  match rotation with
  | Rotation.r0 => [(row + 1, col), (row, col), (row, col - 1), (row, col + 1)]
  | Rotation.r90 => [(row, col), (row - 1, col), (row + 1, col), (row, col - 1)]
  | Rotation.r180 => [(row, col), (row + 1, col), (row + 1, col - 1), (row + 1, col + 1)]
  | Rotation.r270 => [(row, col), (row - 1, col), (row + 1, col), (row, col + 1)]

/-- Shape Geometry of the second `App.tsx` variant (lines 338-369):
`getTetrominoCells` with the rotation-0 and rotation-180 offset tables
swapped relative to the first variant. -/
def getTetrominoCellsB : Geom := fun row col rotation =>
  match rotation with
  | Rotation.r0 => [(row, col), (row + 1, col), (row + 1, col - 1), (row + 1, col + 1)]
  | Rotation.r90 => [(row, col), (row - 1, col), (row + 1, col), (row, col - 1)]
  | Rotation.r180 => [(row + 1, col), (row, col), (row, col - 1), (row, col + 1)]
  | Rotation.r270 => [(row, col), (row - 1, col), (row + 1, col), (row, col + 1)]

/-- Embedding of `isValidPlacement` of `App.tsx` and `part_000`
(`cells.every(([r, c]) => r >= 0 && r < size && c >= 0 && c < size && !grid[r][c])`),
parametric in the offset table `geom` and the board size (8 for `App.tsx`,
the `size` prop for `part_000`). -/
def isValidPlacement (geom : Geom) (size : Nat) (grid : Grid) (row col : Int)
    (rotation : Rotation) : Bool :=
  (geom row col rotation).all fun p =>
    decide (0 ≤ p.1) && decide (p.1 < (size : Int)) &&
    decide (0 ≤ p.2) && decide (p.2 < (size : Int)) &&
    isFalsy (getCell grid p.1 p.2)

/-- Embedding of the React state of one puzzle component:
`grid`, `history`, `currentStep`, `currentRotation`. -/
structure GameState where
  grid : Grid
  history : List Grid
  currentStep : Nat
  currentRotation : Rotation
deriving DecidableEq

/-- Initial React state: empty grid, one-snapshot history, step 0,
rotation 0. -/
def initState (size : Nat) : GameState :=
  { grid := emptyGrid size
    history := [emptyGrid size]
    currentStep := 0
    currentRotation := Rotation.r0 }

/-- Embedding of `placeTetromino`: early return when invalid; otherwise
copy the grid, mark the four cells `'T'`, truncate the history after the
cursor (`history.slice(0, currentStep + 1)`), push the new grid, and
advance the cursor. -/
def placeTetromino (geom : Geom) (size : Nat) (s : GameState) (row col : Int) :
    GameState :=
  if isValidPlacement geom size s.grid row col s.currentRotation then
    let newGrid := setCells s.grid (geom row col s.currentRotation)
    { grid := newGrid
      history := s.history.take (s.currentStep + 1) ++ [newGrid]
      currentStep := s.currentStep + 1
      currentRotation := s.currentRotation }
  else s

/-- Embedding of `undo`: if `currentStep > 0`, decrement the cursor and
restore `history[currentStep - 1]`. -/
def undo (s : GameState) : GameState :=
  if s.currentStep > 0 then
    { s with
      currentStep := s.currentStep - 1
      grid := s.history.getD (s.currentStep - 1) [] }
  else s

/-- Embedding of `redo`: if `currentStep < history.length - 1`, increment
the cursor and restore `history[currentStep + 1]`. -/
def redo (s : GameState) : GameState :=
  if s.currentStep < s.history.length - 1 then
    { s with
      currentStep := s.currentStep + 1
      grid := s.history.getD (s.currentStep + 1) [] }
  else s

/-- Embedding of `reset`: fresh empty grid, single-snapshot history,
cursor 0 (the rotation state is not touched by `reset`). -/
def reset (size : Nat) (s : GameState) : GameState :=
  { grid := emptyGrid size
    history := [emptyGrid size]
    currentStep := 0
    currentRotation := s.currentRotation }

/-- Embedding of `rotateShape` (the `setRotation` interface). -/
def rotateShape (r : Rotation) (s : GameState) : GameState :=
  { s with currentRotation := r }

/-- Embedding of `part_001`'s `isValidPlacement` (lines 75-87), kept in its
hand-written form: a bounds guard `row < 0 || row >= 7 || col < 0 || col >= 8`,
then emptiness reads of the four T cells, then `col > 0 && col < 7`. -/
def isValidPlacement001 (grid : Grid) (row col : Int) : Bool :=
  if row < 0 ∨ 7 ≤ row ∨ col < 0 ∨ 8 ≤ col then false
  else
    isFalsy (getCell grid row col) &&
    isFalsy (getCell grid (row + 1) col) &&
    isFalsy (getCell grid (row + 1) (col - 1)) &&
    isFalsy (getCell grid (row + 1) (col + 1)) &&
    decide (0 < col) && decide (col < 7)

/-- The four cells `part_001`'s `placeTetromino` writes:
`(row,col), (row+1,col), (row+1,col-1), (row+1,col+1)`. -/
def tCells001 (row col : Int) : List (Int × Int) :=
  [(row, col), (row + 1, col), (row + 1, col - 1), (row + 1, col + 1)]

/-- Embedding of `part_001`'s `placeTetromino` (lines 89-104): the four
assignments `newGrid[row][col] = 'T'` … `newGrid[row+1][col+1] = 'T'` in
source order, then the same history truncation and push.  `part_001` has no
rotation state; the `currentRotation` field is simply carried along. -/
def placeTetromino001 (s : GameState) (row col : Int) : GameState :=
  if isValidPlacement001 s.grid row col then
    let g1 := setCell s.grid row col Cell.tee
    let g2 := setCell g1 (row + 1) col Cell.tee
    let g3 := setCell g2 (row + 1) (col - 1) Cell.tee
    let newGrid := setCell g3 (row + 1) (col + 1) Cell.tee
    { grid := newGrid
      history := s.history.take (s.currentStep + 1) ++ [newGrid]
      currentStep := s.currentStep + 1
      currentRotation := s.currentRotation }
  else s

/-- The sequence of grid reads `part_001`'s `isValidPlacement` performs,
in evaluation order, honouring the short-circuit semantics of `&&`: the
guard makes no read; each emptiness conjunct reads one cell and later
conjuncts are only evaluated (hence later cells only read) while the
earlier ones were truthy; the trailing `col > 0 && col < 7` makes no read. -/
def accessedCells001 (grid : Grid) (row col : Int) : List (Int × Int) :=
  if row < 0 ∨ 7 ≤ row ∨ col < 0 ∨ 8 ≤ col then []
  else
    (row, col) ::
      (if isFalsy (getCell grid row col) then
        (row + 1, col) ::
          (if isFalsy (getCell grid (row + 1) col) then
            (row + 1, col - 1) ::
              (if isFalsy (getCell grid (row + 1) (col - 1)) then
                [(row + 1, col + 1)]
              else [])
          else [])
      else [])

/-- Well-formedness of a board: a `size` by `size` matrix (the Data Model's
Board invariant: dimensions never change after creation). -/
def gridWF (size : Nat) (g : Grid) : Bool :=
  (g.length == size) && g.all fun rowL => rowL.length == size

/-- Modelled from the spec (Placement Validator contract, for the
refinement claim): accept iff all cells produced by Shape Geometry have row
and column within `[0, size)` and are currently Empty. -/
def specAccepts (size : Nat) (grid : Grid) (cells : List (Int × Int)) : Bool :=
  cells.all fun p =>
    decide (0 ≤ p.1) && decide (p.1 < (size : Int)) &&
    decide (0 ≤ p.2) && decide (p.2 < (size : Int)) &&
    (getCell grid p.1 p.2 == some Cell.empty)

/-- Row-major list of the occupied cells of a grid, for stating which cells
a placement occupies. -/
def occupiedCells (g : Grid) : List (Nat × Nat) :=
  (List.range g.length).flatMap fun r =>
    (List.range (g.getD r []).length).filterMap fun c =>
      if (g.getD r [])[c]? = some Cell.tee then some (r, c) else none

/-! Helper lemmas shared by the claim theorems. -/

lemma gridWF_iff {size : Nat} {g : Grid} :
    gridWF size g = true ↔ g.length = size ∧ ∀ rowL ∈ g, rowL.length = size := by
  simp [gridWF]

lemma gridWF_emptyGrid (size : Nat) : gridWF size (emptyGrid size) = true := by
  rw [gridWF_iff]
  constructor
  · simp [emptyGrid]
  · intro rowL hmem
    rcases (List.mem_replicate.mp hmem) with ⟨_, rfl⟩
    simp

lemma isFalsy_some_iff {cell : Cell} : isFalsy (some cell) = true ↔ cell = Cell.empty := by
  cases cell <;> simp [isFalsy]

lemma getCell_emptyGrid {size : Nat} {r c : Int} (h1 : 0 ≤ r) (h2 : r < (size : Int))
    (h3 : 0 ≤ c) (h4 : c < (size : Int)) :
    getCell (emptyGrid size) r c = some Cell.empty := by
  have hr : r.toNat < size := by omega
  have hc : c.toNat < size := by omega
  simp [getCell, emptyGrid, h1, h3, List.getD_eq_getElem?_getD,
    List.getElem?_replicate, hr, hc]

lemma occupiedCells_emptyGrid (size : Nat) : occupiedCells (emptyGrid size) = [] := by
  unfold occupiedCells
  rw [List.flatMap_eq_nil_iff]
  intro r hr
  simp only [emptyGrid, List.length_replicate, List.mem_range] at hr
  rw [List.filterMap_eq_nil_iff]
  intro c _
  have hrow : (emptyGrid size).getD r [] = List.replicate size Cell.empty := by
    simp [emptyGrid, List.getD_eq_getElem?_getD, List.getElem?_replicate, hr]
  rw [hrow, if_neg]
  intro hsome
  exact Cell.noConfusion (List.mem_replicate.mp (List.getElem?_mem hsome)).2

lemma getCell_some_of_wf {size : Nat} {g : Grid} (hwf : gridWF size g = true)
    {r c : Int} (hr0 : 0 ≤ r) (hr : r < (size : Int)) (hc0 : 0 ≤ c)
    (hc : c < (size : Int)) :
    ∃ cell, getCell g r c = some cell := by
  obtain ⟨hlen, hrows⟩ := gridWF_iff.mp hwf
  have hrn : r.toNat < g.length := by omega
  have hrlen : (g[r.toNat]).length = size := hrows _ (List.getElem_mem hrn)
  have hcn : c.toNat < (g[r.toNat]).length := by omega
  refine ⟨g[r.toNat][c.toNat], ?_⟩
  simp [getCell, hr0, hc0, List.getD_eq_getElem?_getD, List.getElem?_eq_getElem hrn,
    List.getElem?_eq_getElem hcn]

lemma getCell_empty_iff {size : Nat} {g : Grid} (hwf : gridWF size g = true)
    {r c : Int} (hr0 : 0 ≤ r) (hr : r < (size : Int)) (hc0 : 0 ≤ c)
    (hc : c < (size : Int)) :
    isFalsy (getCell g r c) = true ↔ getCell g r c = some Cell.empty := by
  obtain ⟨cell, hcell⟩ := getCell_some_of_wf hwf hr0 hr hc0 hc
  rw [hcell]
  cases cell <;> simp [isFalsy]

lemma isValidPlacement_eq_specAccepts (geom : Geom) {size : Nat} {grid : Grid}
    (hwf : gridWF size grid = true) (row col : Int) (rot : Rotation) :
    isValidPlacement geom size grid row col rot
      = specAccepts size grid (geom row col rot) := by
  rw [← Bool.coe_iff_coe]
  simp only [isValidPlacement, specAccepts, List.all_eq_true, Bool.and_eq_true,
    decide_eq_true_eq, beq_iff_eq]
  constructor
  · rintro h p hp
    obtain ⟨⟨⟨⟨h1, h2⟩, h3⟩, h4⟩, h5⟩ := h p hp
    exact ⟨⟨⟨⟨h1, h2⟩, h3⟩, h4⟩, (getCell_empty_iff hwf h1 h2 h3 h4).mp h5⟩
  · rintro h p hp
    obtain ⟨⟨⟨⟨h1, h2⟩, h3⟩, h4⟩, h5⟩ := h p hp
    exact ⟨⟨⟨⟨h1, h2⟩, h3⟩, h4⟩, by rw [h5]; rfl⟩

lemma gridWF_setCell {size : Nat} {g : Grid} (hwf : gridWF size g = true)
    (r c : Int) (v : Cell) : gridWF size (setCell g r c v) = true := by
  obtain ⟨hlen, hrows⟩ := gridWF_iff.mp hwf
  rw [gridWF_iff]
  unfold setCell
  split
  · by_cases hrn : r.toNat < g.length
    · refine ⟨by simpa using hlen, ?_⟩
      intro rowL hmem
      rcases List.mem_or_eq_of_mem_set hmem with h | h
      · exact hrows _ h
      · subst h
        rw [List.length_set, List.getD_eq_getElem?_getD, List.getElem?_eq_getElem hrn]
        exact hrows _ (List.getElem_mem hrn)
    · rw [List.set_eq_of_length_le (by omega)]
      exact ⟨hlen, hrows⟩
  · exact ⟨hlen, hrows⟩

lemma getCell_setCell_of_wf {size : Nat} {g : Grid} (hwf : gridWF size g = true)
    {r c : Int} (hr0 : 0 ≤ r) (hr : r < (size : Int)) (hc0 : 0 ≤ c)
    (hc : c < (size : Int)) (v : Cell) (r' c' : Int) :
    getCell (setCell g r c v) r' c'
      = if r' = r ∧ c' = c then some v else getCell g r' c' := by
  obtain ⟨hlen, hrows⟩ := gridWF_iff.mp hwf
  have hrn : r.toNat < g.length := by omega
  have hrowget : g.getD r.toNat [] = g[r.toNat] := by
    simp [List.getD_eq_getElem?_getD, List.getElem?_eq_getElem hrn]
  have hrlen : (g[r.toNat]).length = size := hrows _ (List.getElem_mem hrn)
  have hcn : c.toNat < (g[r.toNat]).length := by omega
  have hset : setCell g r c v = g.set r.toNat ((g[r.toNat]).set c.toNat v) := by
    rw [setCell, if_pos ⟨hr0, hc0⟩, hrowget]
  by_cases hr' : 0 ≤ r'
  · by_cases hc' : 0 ≤ c'
    · by_cases hrr : r' = r
      · subst hrr
        have hrowset : (setCell g r' c v).getD r'.toNat []
            = (g[r'.toNat]).set c.toNat v := by
          rw [hset, List.getD_eq_getElem?_getD, List.getElem?_set_self (by simpa using hrn)]
          rfl
        by_cases hcc : c' = c
        · subst hcc
          rw [getCell, if_pos ⟨hr', hc'⟩, hrowset, if_pos ⟨rfl, rfl⟩,
            List.getElem?_set_self (by simpa using hcn)]
        · have hne : c.toNat ≠ c'.toNat := by omega
          rw [getCell, if_pos ⟨hr', hc'⟩, hrowset, List.getElem?_set_ne hne,
            if_neg (by tauto), getCell, if_pos ⟨hr', hc'⟩, hrowget]
      · have hne : r.toNat ≠ r'.toNat := by omega
        rw [getCell, if_pos ⟨hr', hc'⟩, hset, List.getD_eq_getElem?_getD,
          List.getElem?_set_ne hne, if_neg (by tauto), getCell, if_pos ⟨hr', hc'⟩,
          List.getD_eq_getElem?_getD]
    · have hcc : ¬ (c' = c) := by omega
      rw [getCell, if_neg (by tauto), if_neg (by tauto), getCell, if_neg (by tauto)]
  · have hrr : ¬ (r' = r) := by omega
    rw [getCell, if_neg (by tauto), if_neg (by tauto), getCell, if_neg (by tauto)]

lemma getCell_setCells_of_wf {size : Nat} :
    ∀ (cells : List (Int × Int)) (g : Grid), gridWF size g = true →
    (∀ p ∈ cells, 0 ≤ p.1 ∧ p.1 < (size : Int) ∧ 0 ≤ p.2 ∧ p.2 < (size : Int)) →
    gridWF size (setCells g cells) = true ∧
    ∀ r c : Int, getCell (setCells g cells) r c
      = if (r, c) ∈ cells then some Cell.tee else getCell g r c
  | [], g, hwf, _ => by
    refine ⟨hwf, ?_⟩
    intro r c
    simp [setCells]
  | p :: rest, g, hwf, hbounds => by
    obtain ⟨hp1, hp2, hp3, hp4⟩ := hbounds p (List.mem_cons_self p rest)
    have hsets : setCells g (p :: rest) = setCells (setCell g p.1 p.2 Cell.tee) rest := rfl
    have hwf1 : gridWF size (setCell g p.1 p.2 Cell.tee) = true := gridWF_setCell hwf p.1 p.2 _
    obtain ⟨hwf2, hframe⟩ := getCell_setCells_of_wf rest (setCell g p.1 p.2 Cell.tee) hwf1
      (fun q hq => hbounds q (List.mem_cons_of_mem p hq))
    refine ⟨by rw [hsets]; exact hwf2, ?_⟩
    intro r c
    rw [hsets, hframe r c, getCell_setCell_of_wf hwf hp1 hp2 hp3 hp4]
    by_cases hmem : (r, c) ∈ rest
    · simp [hmem]
    · by_cases heq : (r, c) = p
      · have : r = p.1 ∧ c = p.2 := by
          constructor <;> (rw [← heq])
        simp [hmem, heq, this]
      · have : ¬ (r = p.1 ∧ c = p.2) := by
          intro ⟨h1, h2⟩
          exact heq (Prod.ext h1 h2)
        simp [hmem, heq, this]

lemma isValidPlacement_bounds {geom : Geom} {size : Nat} {grid : Grid} {row col : Int}
    {rot : Rotation} (h : isValidPlacement geom size grid row col rot = true) :
    ∀ p ∈ geom row col rot,
      (0 ≤ p.1 ∧ p.1 < (size : Int) ∧ 0 ≤ p.2 ∧ p.2 < (size : Int)) ∧
      isFalsy (getCell grid p.1 p.2) = true := by
  intro p hp
  have := (List.all_eq_true.mp h) p hp
  simp only [Bool.and_eq_true, decide_eq_true_eq] at this
  tauto

/-- States reachable from the initial state by any sequence of the five
operations the presentation layer can dispatch. -/
inductive Reachable (geom : Geom) (size : Nat) : GameState → Prop where
  | init : Reachable geom size (initState size)
  | place (s : GameState) (row col : Int) :
      Reachable geom size s → Reachable geom size (placeTetromino geom size s row col)
  | undoStep (s : GameState) : Reachable geom size s → Reachable geom size (undo s)
  | redoStep (s : GameState) : Reachable geom size s → Reachable geom size (redo s)
  | resetStep (s : GameState) : Reachable geom size s → Reachable geom size (reset size s)
  | rotate (s : GameState) (r : Rotation) :
      Reachable geom size s → Reachable geom size (rotateShape r s)

/-- The History Manager invariant: the cursor indexes the history, the
displayed grid is the snapshot at the cursor, and every snapshot is a
well-formed board. -/
def Inv (size : Nat) (s : GameState) : Prop :=
  s.currentStep < s.history.length ∧
  s.history.getD s.currentStep [] = s.grid ∧
  ∀ g ∈ s.history, gridWF size g = true

lemma inv_init (size : Nat) : Inv size (initState size) := by
  refine ⟨by simp [initState], by simp [initState], ?_⟩
  intro g hg
  simp only [initState, List.mem_singleton] at hg
  subst hg
  exact gridWF_emptyGrid size

lemma getD_truncate_push {h : List Grid} {step : Nat} (hstep : step < h.length)
    (g : Grid) :
    (h.take (step + 1) ++ [g]).length = step + 2 ∧
    (h.take (step + 1) ++ [g]).getD (step + 1) [] = g ∧
    ∀ i ≤ step, (h.take (step + 1) ++ [g]).getD i [] = h.getD i [] := by
  have hlen : (h.take (step + 1)).length = step + 1 := by
    simp [List.length_take]
    omega
  refine ⟨by simp [hlen], ?_, ?_⟩
  · rw [List.getD_eq_getElem?_getD, List.getElem?_append_right (by omega), hlen]
    simp
  · intro i hi
    rw [List.getD_eq_getElem?_getD, List.getElem?_append_left (by omega),
      List.getElem?_take_of_lt (by omega), List.getD_eq_getElem?_getD]

lemma inv_place {geom : Geom} {size : Nat} {s : GameState} (hinv : Inv size s)
    (row col : Int) : Inv size (placeTetromino geom size s row col) := by
  obtain ⟨hstep, hcur, hall⟩ := hinv
  unfold placeTetromino
  split
  · rename_i hvalid
    have hbounds := isValidPlacement_bounds hvalid
    have hwf : gridWF size s.grid = true := by
      apply hall
      rw [← hcur, List.getD_eq_getElem?_getD, List.getElem?_eq_getElem hstep,
        Option.getD_some]
      exact List.getElem_mem hstep
    obtain ⟨hwfnew, _⟩ := getCell_setCells_of_wf (geom row col s.currentRotation) s.grid
      hwf (fun p hp => (hbounds p hp).1)
    obtain ⟨hlen, hlast, _⟩ :=
      getD_truncate_push hstep (setCells s.grid (geom row col s.currentRotation))
    refine ⟨by simp [hlen], by simpa using hlast, ?_⟩
    intro g hg
    simp only [List.mem_append, List.mem_singleton] at hg
    rcases hg with hg | hg
    · exact hall _ (List.take_subset _ _ hg)
    · subst hg
      exact hwfnew
  · exact ⟨hstep, hcur, hall⟩

lemma inv_undo {size : Nat} {s : GameState} (hinv : Inv size s) : Inv size (undo s) := by
  obtain ⟨hstep, hcur, hall⟩ := hinv
  unfold undo
  split
  · refine ⟨by simp; omega, by simp, ?_⟩
    simpa using hall
  · exact ⟨hstep, hcur, hall⟩

lemma inv_redo {size : Nat} {s : GameState} (hinv : Inv size s) : Inv size (redo s) := by
  obtain ⟨hstep, hcur, hall⟩ := hinv
  unfold redo
  split
  · rename_i hlt
    refine ⟨by simp; omega, by simp, ?_⟩
    simpa using hall
  · exact ⟨hstep, hcur, hall⟩

lemma inv_reset {size : Nat} {s : GameState} : Inv size (reset size s) := by
  refine ⟨by simp [reset], by simp [reset], ?_⟩
  intro g hg
  simp only [reset, List.mem_singleton] at hg
  subst hg
  exact gridWF_emptyGrid size

lemma reachable_inv {geom : Geom} {size : Nat} {s : GameState}
    (h : Reachable geom size s) : Inv size s := by
  induction h with
  | init => exact inv_init size
  | place s row col _ ih => exact inv_place ih row col
  | undoStep s _ ih => exact inv_undo ih
  | redoStep s _ ih => exact inv_redo ih
  | resetStep s _ ih => exact inv_reset
  | rotate s r _ ih =>
    obtain ⟨h1, h2, h3⟩ := ih
    exact ⟨h1, h2, h3⟩

lemma isValidPlacement001_eq_specAccepts {grid : Grid} (hwf : gridWF 8 grid = true)
    (row col : Int) :
    isValidPlacement001 grid row col = specAccepts 8 grid (tCells001 row col) := by
  rw [← Bool.coe_iff_coe]
  constructor
  · intro h
    unfold isValidPlacement001 at h
    split at h
    · exact absurd h (by simp)
    · rename_i hguard
      push_neg at hguard
      obtain ⟨hg1, hg2, hg3, hg4⟩ := hguard
      simp only [Bool.and_eq_true, decide_eq_true_eq] at h
      obtain ⟨⟨⟨⟨⟨e1, e2⟩, e3⟩, e4⟩, hcolpos⟩, hcol7⟩ := h
      unfold specAccepts tCells001
      simp only [List.all_cons, List.all_nil, Bool.and_eq_true, Bool.and_true,
        decide_eq_true_eq, beq_iff_eq]
      refine ⟨⟨⟨⟨⟨?_, ?_⟩, ?_⟩, ?_⟩, ?_⟩,
              ⟨⟨⟨⟨?_, ?_⟩, ?_⟩, ?_⟩, ?_⟩,
              ⟨⟨⟨⟨?_, ?_⟩, ?_⟩, ?_⟩, ?_⟩,
              ⟨⟨⟨⟨?_, ?_⟩, ?_⟩, ?_⟩, ?_⟩⟩ <;>
        first
        | omega
        | (rw [← getCell_empty_iff hwf (by omega) (by omega) (by omega) (by omega)]
           assumption)
  · intro h
    unfold specAccepts tCells001 at h
    simp only [List.all_cons, List.all_nil, Bool.and_eq_true, Bool.and_true,
      decide_eq_true_eq, beq_iff_eq] at h
    obtain ⟨⟨⟨⟨⟨a1, a2⟩, a3⟩, a4⟩, a5⟩,
      ⟨⟨⟨⟨b1, b2⟩, b3⟩, b4⟩, b5⟩,
      ⟨⟨⟨⟨c1, c2⟩, c3⟩, c4⟩, c5⟩,
      ⟨⟨⟨⟨d1, d2⟩, d3⟩, d4⟩, d5⟩⟩ := h
    unfold isValidPlacement001
    rw [if_neg (by omega)]
    simp only [Bool.and_eq_true, decide_eq_true_eq]
    refine ⟨⟨⟨⟨⟨?_, ?_⟩, ?_⟩, ?_⟩, ?_⟩, ?_⟩ <;>
      first
      | omega
      | (rw [getCell_empty_iff hwf (by omega) (by omega) (by omega) (by omega)]
         assumption)

/-! Claim theorems. -/

/-- C2: for every well-formed board, anchor and Rotation, each variant's
Placement Validator accepts exactly when all four cells produced by its
Shape Geometry have row and column within `[0, N)` and are currently Empty
(the condition `specAccepts`); in particular `part_001`'s hand-written
`row < 7`, `col > 0`, `col < 7` form is equivalent to this condition. -/
theorem claim_C2 (size : Nat) (grid : Grid) (row col : Int) (rot : Rotation)
    (hwf : gridWF size grid = true) :
    isValidPlacement getTetrominoCells size grid row col rot
      = specAccepts size grid (getTetrominoCells row col rot) ∧
    isValidPlacement getTetrominoCellsB size grid row col rot
      = specAccepts size grid (getTetrominoCellsB row col rot) ∧
    (size = 8 →
      isValidPlacement001 grid row col = specAccepts 8 grid (tCells001 row col)) := by
  refine ⟨isValidPlacement_eq_specAccepts _ hwf row col rot,
    isValidPlacement_eq_specAccepts _ hwf row col rot, ?_⟩
  intro h8
  subst h8
  exact isValidPlacement001_eq_specAccepts hwf row col

/-- Witness for C2: the equivalences instantiated on the empty 8x8 board at
anchor (1,1), rotation 0. -/
theorem claim_C2_witness :
    isValidPlacement getTetrominoCells 8 (emptyGrid 8) 1 1 Rotation.r0
      = specAccepts 8 (emptyGrid 8) (getTetrominoCells 1 1 Rotation.r0) ∧
    isValidPlacement getTetrominoCellsB 8 (emptyGrid 8) 1 1 Rotation.r0
      = specAccepts 8 (emptyGrid 8) (getTetrominoCellsB 1 1 Rotation.r0) ∧
    ((8 : Nat) = 8 →
      isValidPlacement001 (emptyGrid 8) 1 1
        = specAccepts 8 (emptyGrid 8) (tCells001 1 1)) :=
  claim_C2 8 (emptyGrid 8) 1 1 Rotation.r0 (by decide)

/-- C4: for every state with a well-formed board and every accepted
placement (any offset table, any size), the new grid reads Occupied exactly
at the four cells of the Shape Geometry, each of which read Empty before,
and reads identically to the old grid everywhere else. -/
theorem claim_C4 (geom : Geom) (size : Nat) (s : GameState) (row col : Int)
    (hwf : gridWF size s.grid = true)
    (hvalid : isValidPlacement geom size s.grid row col s.currentRotation = true) :
    (∀ p ∈ geom row col s.currentRotation,
      getCell s.grid p.1 p.2 = some Cell.empty ∧
      getCell (placeTetromino geom size s row col).grid p.1 p.2 = some Cell.tee) ∧
    (∀ r c : Int, (r, c) ∉ geom row col s.currentRotation →
      getCell (placeTetromino geom size s row col).grid r c = getCell s.grid r c) := by
  have hbounds := isValidPlacement_bounds hvalid
  obtain ⟨hwfnew, hframe⟩ := getCell_setCells_of_wf (geom row col s.currentRotation)
    s.grid hwf (fun p hp => (hbounds p hp).1)
  have hgrid : (placeTetromino geom size s row col).grid
      = setCells s.grid (geom row col s.currentRotation) := by
    simp [placeTetromino, hvalid]
  constructor
  · intro p hp
    obtain ⟨⟨b1, b2, b3, b4⟩, hfal⟩ := hbounds p hp
    refine ⟨(getCell_empty_iff hwf b1 b2 b3 b4).mp hfal, ?_⟩
    rw [hgrid, hframe p.1 p.2, if_pos (by simpa using hp)]
  · intro r c hnot
    rw [hgrid, hframe r c, if_neg hnot]

/-- Witness for C4: the accepted placement at anchor (1,1) on the fresh 8x8
board turns the previously-Empty cell (1,1) Occupied and leaves cell (5,5)
unchanged. -/
theorem claim_C4_witness :
    (getCell (initState 8).grid 1 1 = some Cell.empty ∧
      getCell (placeTetromino getTetrominoCells 8 (initState 8) 1 1).grid 1 1
        = some Cell.tee) ∧
    getCell (placeTetromino getTetrominoCells 8 (initState 8) 1 1).grid 5 5
      = getCell (initState 8).grid 5 5 :=
  ⟨(claim_C4 getTetrominoCells 8 (initState 8) 1 1 (by decide) (by decide)).1
      (1, 1) (by decide),
   (claim_C4 getTetrominoCells 8 (initState 8) 1 1 (by decide) (by decide)).2
      5 5 (by decide)⟩

/-- C3: for every state and anchor, when the Placement Validator rejects
(in any variant: the table-driven `placeTetromino` of `App.tsx`/`part_000`
with any offset table and any size, and `part_001`'s `placeTetromino`),
`place` returns the state exactly unchanged: same grid, same history, same
cursor (atomic rejection, no partial mutation). -/
theorem claim_C3 :
    (∀ (geom : Geom) (size : Nat) (s : GameState) (row col : Int),
      isValidPlacement geom size s.grid row col s.currentRotation = false →
      placeTetromino geom size s row col = s) ∧
    (∀ (s : GameState) (row col : Int),
      isValidPlacement001 s.grid row col = false →
      placeTetromino001 s row col = s) := by
  constructor
  · intro geom size s row col h
    simp [placeTetromino, h]
  · intro s row col h
    simp [placeTetromino001, h]

/-- Witness for C3: the second placement at anchor (7,7) on the fresh 8x8
board is rejected, and the state is exactly unchanged. -/
theorem claim_C3_witness :
    isValidPlacement getTetrominoCells 8 (initState 8).grid 7 7
      (initState 8).currentRotation = false ∧
    placeTetromino getTetrominoCells 8 (initState 8) 7 7 = initState 8 :=
  ⟨by decide, claim_C3.1 getTetrominoCells 8 (initState 8) 7 7 (by decide)⟩

/-- C7: `undo` is a no-op whenever the cursor is 0, `redo` is a no-op
whenever the cursor equals `history.length - 1`; on a fresh session `undo`
leaves the state unchanged, and after a single placement `redo` leaves the
state unchanged.  Both are total functions, so neither ever fails. -/
theorem claim_C7 :
    (∀ s : GameState, s.currentStep = 0 → undo s = s) ∧
    (∀ s : GameState, s.currentStep = s.history.length - 1 → redo s = s) ∧
    undo (initState 8) = initState 8 ∧
    redo (placeTetromino getTetrominoCells 8 (initState 8) 1 1)
      = placeTetromino getTetrominoCells 8 (initState 8) 1 1 := by
  refine ⟨?_, ?_, ?_, ?_⟩
  · intro s h
    simp [undo, h]
  · intro s h
    simp [redo, h]
  · decide
  · decide

/-- Witness for C7: both no-op laws applied at the fresh 8x8 session. -/
theorem claim_C7_witness :
    undo (initState 8) = initState 8 ∧ redo (initState 8) = initState 8 :=
  ⟨claim_C7.1 (initState 8) rfl, claim_C7.2.1 (initState 8) (by decide)⟩

/-- C8: `reset` always produces the all-Empty board, a single-snapshot
history holding only that board, and cursor 0, regardless of the prior
state; the empty board reads `Empty` at every in-range cell. -/
theorem claim_C8 (size : Nat) (s : GameState) :
    reset size s
      = { grid := emptyGrid size, history := [emptyGrid size], currentStep := 0,
          currentRotation := s.currentRotation } ∧
    occupiedCells (reset size s).grid = [] ∧
    ∀ r c : Int, 0 ≤ r → r < (size : Int) → 0 ≤ c → c < (size : Int) →
      getCell (reset size s).grid r c = some Cell.empty := by
  refine ⟨rfl, ?_, ?_⟩
  · simp only [reset]
    rw [occupiedCells_emptyGrid]
  · intro r c h1 h2 h3 h4
    simp only [reset]
    exact getCell_emptyGrid h1 h2 h3 h4

/-- Witness for C8: resetting a session that has one placement yields the
single-snapshot empty state, whose cell (3,4) is Empty. -/
theorem claim_C8_witness :
    reset 8 (placeTetromino getTetrominoCells 8 (initState 8) 1 1)
      = { grid := emptyGrid 8, history := [emptyGrid 8], currentStep := 0,
          currentRotation :=
            (placeTetromino getTetrominoCells 8 (initState 8) 1 1).currentRotation } ∧
    getCell (reset 8 (placeTetromino getTetrominoCells 8 (initState 8) 1 1)).grid 3 4
      = some Cell.empty :=
  ⟨(claim_C8 8 (placeTetromino getTetrominoCells 8 (initState 8) 1 1)).1,
   (claim_C8 8 (placeTetromino getTetrominoCells 8 (initState 8) 1 1)).2.2 3 4
     (by decide) (by decide) (by decide) (by decide)⟩

/-- C5: for every reachable state whose cursor is positive, `undo`
immediately followed by `redo` restores the exact board that existed before
the `undo` (round-trip law, no intervening `place`). -/
theorem claim_C5 (geom : Geom) (size : Nat) (s : GameState)
    (hreach : Reachable geom size s) (hpos : 0 < s.currentStep) :
    (redo (undo s)).grid = s.grid := by
  obtain ⟨hstep, hcur, _⟩ := reachable_inv hreach
  have hundo : undo s
      = { s with
          currentStep := s.currentStep - 1
          grid := s.history.getD (s.currentStep - 1) [] } := by
    simp [undo, hpos]
  rw [hundo]
  have hlt : s.currentStep - 1 < s.history.length - 1 := by omega
  simp only [redo, hlt, if_pos]
  rw [show s.currentStep - 1 + 1 = s.currentStep by omega]
  exact hcur

/-- Witness for C5: the round trip after one placement on the fresh 8x8
board. -/
theorem claim_C5_witness :
    0 < (placeTetromino getTetrominoCells 8 (initState 8) 1 1).currentStep ∧
    (redo (undo (placeTetromino getTetrominoCells 8 (initState 8) 1 1))).grid
      = (placeTetromino getTetrominoCells 8 (initState 8) 1 1).grid :=
  ⟨by decide,
   claim_C5 getTetrominoCells 8 (placeTetromino getTetrominoCells 8 (initState 8) 1 1)
     (Reachable.place (initState 8) 1 1 Reachable.init) (by decide)⟩

/-- C6: in every reachable state whose cursor is strictly before the last
history index, an accepted placement truncates the snapshots after the
cursor, appends the new board, and advances the cursor to the new last
index, after which `redo` is a no-op. -/
theorem claim_C6 (geom : Geom) (size : Nat) (s : GameState) (row col : Int)
    (hreach : Reachable geom size s) (_hmid : s.currentStep < s.history.length - 1)
    (hvalid : isValidPlacement geom size s.grid row col s.currentRotation = true) :
    (placeTetromino geom size s row col).history
      = s.history.take (s.currentStep + 1)
        ++ [(placeTetromino geom size s row col).grid] ∧
    (placeTetromino geom size s row col).history.length = s.currentStep + 2 ∧
    (∀ i ≤ s.currentStep,
      (placeTetromino geom size s row col).history.getD i [] = s.history.getD i []) ∧
    (placeTetromino geom size s row col).currentStep = s.currentStep + 1 ∧
    (placeTetromino geom size s row col).currentStep
      = (placeTetromino geom size s row col).history.length - 1 ∧
    redo (placeTetromino geom size s row col) = placeTetromino geom size s row col := by
  obtain ⟨hstep, _, _⟩ := reachable_inv hreach
  have hplace : placeTetromino geom size s row col
      = { grid := setCells s.grid (geom row col s.currentRotation)
          history := s.history.take (s.currentStep + 1)
            ++ [setCells s.grid (geom row col s.currentRotation)]
          currentStep := s.currentStep + 1
          currentRotation := s.currentRotation } := by
    simp [placeTetromino, hvalid]
  obtain ⟨hlen, _, hpre⟩ :=
    getD_truncate_push hstep (setCells s.grid (geom row col s.currentRotation))
  rw [hplace]
  refine ⟨rfl, hlen, fun i hi => hpre i hi, rfl, by simp [hlen], ?_⟩
  have : ¬ ((s.currentStep + 1)
      < (s.history.take (s.currentStep + 1)
          ++ [setCells s.grid (geom row col s.currentRotation)]).length - 1) := by
    rw [hlen]
    omega
  simp [redo, this]

/-- Witness for C6: place, undo, then place again on the fresh 8x8 board;
the second placement truncates the redo history and lands the cursor on the
new last index. -/
theorem claim_C6_witness :
    (placeTetromino getTetrominoCells 8
        (undo (placeTetromino getTetrominoCells 8 (initState 8) 1 1)) 1 1).currentStep
      = (undo (placeTetromino getTetrominoCells 8 (initState 8) 1 1)).currentStep + 1 ∧
    redo (placeTetromino getTetrominoCells 8
        (undo (placeTetromino getTetrominoCells 8 (initState 8) 1 1)) 1 1)
      = placeTetromino getTetrominoCells 8
          (undo (placeTetromino getTetrominoCells 8 (initState 8) 1 1)) 1 1 :=
  ⟨(claim_C6 getTetrominoCells 8
      (undo (placeTetromino getTetrominoCells 8 (initState 8) 1 1)) 1 1
      (Reachable.undoStep _ (Reachable.place _ 1 1 Reachable.init))
      (by decide) (by decide)).2.2.2.1,
   (claim_C6 getTetrominoCells 8
      (undo (placeTetromino getTetrominoCells 8 (initState 8) 1 1)) 1 1
      (Reachable.undoStep _ (Reachable.place _ 1 1 Reachable.init))
      (by decide) (by decide)).2.2.2.2.2⟩

/-- C9: in every state reachable by any sequence of place, undo, redo,
reset and rotation operations, the cursor is a valid index into the
(nonempty) history, and the displayed grid is the snapshot at the cursor. -/
theorem claim_C9 (geom : Geom) (size : Nat) (s : GameState)
    (hreach : Reachable geom size s) :
    s.history ≠ [] ∧ s.currentStep ≤ s.history.length - 1 ∧
    s.history.getD s.currentStep [] = s.grid := by
  obtain ⟨h1, h2, _⟩ := reachable_inv hreach
  refine ⟨?_, by omega, h2⟩
  intro hnil
  rw [hnil] at h1
  simp at h1

/-- Witness for C9: the invariant at the initial 8x8 state. -/
theorem claim_C9_witness :
    (initState 8).history ≠ [] ∧
    (initState 8).currentStep ≤ (initState 8).history.length - 1 ∧
    (initState 8).history.getD (initState 8).currentStep [] = (initState 8).grid :=
  claim_C9 getTetrominoCells 8 (initState 8) Reachable.init

/-- Counterexample for C1: in the first `App.tsx` variant and in `part_000`
(the `getTetrominoCells` cited by the claim), rotation 0 at anchor (0,1)
does not produce the claimed cells: it contains (0,0), which is not among
{(0,1),(1,1),(1,0),(1,2)}, and the placement at anchor (0,1) on the empty
8x8 board occupies {(0,0),(0,1),(0,2),(1,1)} instead of the claimed set. -/
theorem claim_C1_counterexample :
    getTetrominoCells 0 1 Rotation.r0
      ≠ [((0 : Int), (1 : Int)), (1, 1), (1, 0), (1, 2)] ∧
    ((0 : Int), (0 : Int)) ∈ getTetrominoCells 0 1 Rotation.r0 ∧
    ((0 : Int), (0 : Int)) ∉ [((0 : Int), (1 : Int)), (1, 1), (1, 0), (1, 2)] ∧
    occupiedCells (placeTetromino getTetrominoCells 8 (initState 8) 0 1).grid
      = [(0, 0), (0, 1), (0, 2), (1, 1)] ∧
    occupiedCells (placeTetromino getTetrominoCells 8 (initState 8) 0 1).grid
      ≠ [(0, 1), (1, 0), (1, 1), (1, 2)] := by
  refine ⟨?_, ?_, ?_, ?_, ?_⟩ <;> decide

/-- C1 (amended): the cells (r,c),(r+1,c),(r+1,c-1),(r+1,c+1) are produced
at rotation 0 by the second `App.tsx` variant's Shape Geometry — and at
rotation 180 by the first variant's and `part_000`'s — and with that
geometry the whole scenario holds on the 8x8 board: placing at anchor (0,1)
on the empty board occupies exactly {(0,1),(1,0),(1,1),(1,2)}, a second
place at (0,1) is rejected leaving the state unchanged, `undo` returns the
board to all-Empty, and `redo` restores the single placement. -/
theorem claim_C1 :
    (∀ row col : Int, getTetrominoCellsB row col Rotation.r0
      = [(row, col), (row + 1, col), (row + 1, col - 1), (row + 1, col + 1)]) ∧
    (∀ row col : Int, getTetrominoCells row col Rotation.r180
      = [(row, col), (row + 1, col), (row + 1, col - 1), (row + 1, col + 1)]) ∧
    occupiedCells (placeTetromino getTetrominoCellsB 8 (initState 8) 0 1).grid
      = [(0, 1), (1, 0), (1, 1), (1, 2)] ∧
    isValidPlacement getTetrominoCellsB 8
        (placeTetromino getTetrominoCellsB 8 (initState 8) 0 1).grid 0 1 Rotation.r0
      = false ∧
    placeTetromino getTetrominoCellsB 8
        (placeTetromino getTetrominoCellsB 8 (initState 8) 0 1) 0 1
      = placeTetromino getTetrominoCellsB 8 (initState 8) 0 1 ∧
    (undo (placeTetromino getTetrominoCellsB 8 (initState 8) 0 1)).grid
      = emptyGrid 8 ∧
    occupiedCells (emptyGrid 8) = [] ∧
    redo (undo (placeTetromino getTetrominoCellsB 8 (initState 8) 0 1))
      = placeTetromino getTetrominoCellsB 8 (initState 8) 0 1 := by
  refine ⟨fun row col => rfl, fun row col => rfl, ?_, ?_, ?_, ?_, ?_, ?_⟩ <;> decide

lemma mem_accessedCells001 {grid : Grid} {row col : Int} {p : Int × Int}
    (hp : p ∈ accessedCells001 grid row col) :
    (0 ≤ row ∧ row < 7 ∧ 0 ≤ col ∧ col < 8) ∧
      (p = (row, col) ∨ p = (row + 1, col) ∨ p = (row + 1, col - 1) ∨
       p = (row + 1, col + 1)) := by
  unfold accessedCells001 at hp
  split at hp
  · simp at hp
  · rename_i hguard
    push_neg at hguard
    refine ⟨⟨hguard.1, hguard.2.1, hguard.2.2.1, hguard.2.2.2⟩, ?_⟩
    split_ifs at hp <;> simp only [List.mem_cons, List.mem_singleton,
      List.not_mem_nil, or_false] at hp <;> tauto

/-- Counterexample for C10: at the in-range anchor (0,0), `part_001`'s
validator reads `grid[1][-1]` (the emptiness conjuncts run before the
`col > 0` check), and in the total embedding that read returns `none`:
an access outside the array. -/
theorem claim_C10_counterexample :
    (0 : Int) ≤ 0 ∧ (0 : Int) < 8 ∧
    ((1 : Int), (-1 : Int)) ∈ accessedCells001 (emptyGrid 8) 0 0 ∧
    ¬ ((0 : Int) ≤ -1) ∧
    getCell (emptyGrid 8) 1 (-1) = none := by
  refine ⟨?_, ?_, ?_, ?_, ?_⟩ <;> decide

/-- C10 (amended): for every grid and every anchor with
`0 ≤ row < 8` and `0 ≤ col < 8`, every ROW index `part_001`'s validator
reads is within `[0, 8)`; and whenever additionally `0 < col < 7`, every
read is fully in range in both coordinates.  (At `col = 0` or `col = 7` a
column index of -1 or 8 can be read, as the counterexample shows.) -/
theorem claim_C10 (grid : Grid) (row col : Int) (h1 : 0 ≤ row) (h2 : row < 8)
    (h3 : 0 ≤ col) (h4 : col < 8) :
    (∀ p ∈ accessedCells001 grid row col, 0 ≤ p.1 ∧ p.1 < 8) ∧
    (0 < col → col < 7 →
      ∀ p ∈ accessedCells001 grid row col,
        0 ≤ p.1 ∧ p.1 < 8 ∧ 0 ≤ p.2 ∧ p.2 < 8) := by
  constructor
  · intro p hp
    obtain ⟨⟨hg1, hg2, hg3, hg4⟩, rfl | rfl | rfl | rfl⟩ := mem_accessedCells001 hp <;>
      exact ⟨by omega, by omega⟩
  · intro hc1 hc2 p hp
    obtain ⟨⟨hg1, hg2, hg3, hg4⟩, rfl | rfl | rfl | rfl⟩ := mem_accessedCells001 hp <;>
      exact ⟨by omega, by omega, by omega, by omega⟩

/-- Witness for C10: at anchor (0,3) on the empty board every access is
fully in range; in particular the first accessed cell (0,3) is. -/
theorem claim_C10_witness :
    0 ≤ (((0 : Int), (3 : Int)) : Int × Int).1 ∧
    (((0 : Int), (3 : Int)) : Int × Int).1 < 8 ∧
    0 ≤ (((0 : Int), (3 : Int)) : Int × Int).2 ∧
    (((0 : Int), (3 : Int)) : Int × Int).2 < 8 :=
  (claim_C10 (emptyGrid 8) 0 3 (by decide) (by decide) (by decide) (by decide)).2
    (by decide) (by decide) ((0 : Int), (3 : Int)) (by decide)

end Puzzle
